import Mathlib

/-!
Verification of the keyword-extraction and keyword-reconciliation core of the
simple-ats python service (`src/python-service/main.py`).

The embedding below is a shallow model of the source, written over
`List Char` / `String`:

* `normalizeText` models lines 274-276 (lowercase, replace every character
  other than `\w`, whitespace and `+ # . -` by a space, collapse whitespace
  runs, strip).  ASCII model: `\w` is `[a-zA-Z0-9_]`, `str.lower` is
  `Char.toLower`.
* `findTokens` models `re.findall(r'\b[a-zA-Z0-9+#.-]+\b', text)`, including
  the word-boundary semantics of `\b` (a position where exactly one side is a
  `\w` character) and the backtracking of the greedy `+` against the trailing
  `\b`.
* `is_pure_number`, `has_technical_pattern`, `is_technical_skill` transcribe
  the functions of the same names.
* `extract_skills_and_keywords` models the extractor on its deterministic
  regex-fallback tokenization path (the path taken when the NLTK lemmatizer is
  unavailable, lines 318-326; the stop-word set is then the basic fallback set
  of lines 176-182).  The NLTK tokenizer/lemmatizer is an external collaborator
  and is not modelled.
* `sharedKeywords` / `missingKeywords` model the keyword part of the
  `/similarity` endpoint (lines 395-404): intersection / difference, sort by
  `(not is_technical_skill(x), x.lower())`, truncation to the configured caps.
  Python's `list.sort` is modelled by `List.insertionSort` with the same key;
  python sets are modelled as lists, with all set-level statements phrased via
  membership so the arbitrary iteration order of a python set is irrelevant.
-/

namespace SimpleATS

/-- Python whitespace characters (`str.strip`, `\s`), ASCII part. -/
def isSpacePy (c : Char) : Bool :=
  c = ' ' || c = '\t' || c = '\n' || c = '\r' || c = '\x0b' || c = '\x0c'

/-- A regex word character `\w` (ASCII): letter, digit or underscore. -/
def isWordChar (c : Char) : Bool := c.isAlphanum || c = '_'

/-- A character of the token class `[a-zA-Z0-9+#.-]`. -/
def isTokChar (c : Char) : Bool :=
  c.isAlphanum || c = '+' || c = '#' || c = '.' || c = '-'

/-- One character of the normalization `re.sub(r'[^\w\s+#.-]', ' ', text.lower())`,
with every whitespace character already identified with `' '` (the subsequent
`re.sub(r'\s+', ' ', ...)` collapses whitespace runs anyway). -/
def normChar (c : Char) : Char :=
  let d := c.toLower
  if isWordChar d || d = '+' || d = '#' || d = '.' || d = '-' then d else ' '

/-- Collapse runs of `' '` to a single `' '` (`re.sub(r'\s+', ' ', text)`). -/
def squeeze : List Char → List Char
  | [] => []
  | [c] => [c]
  | c :: d :: rest =>
    if c = ' ' && d = ' ' then squeeze (d :: rest)
    else c :: squeeze (d :: rest)

/-- `str.strip()` on an already-collapsed text: drop leading and trailing spaces. -/
def stripSp (l : List Char) : List Char :=
  ((l.dropWhile (· == ' ')).reverse.dropWhile (· == ' ')).reverse

/-- Lines 274-276: lowercase, keep only `\w`, whitespace and `+ # . -`,
collapse whitespace, strip. -/
def normalizeText (l : List Char) : List Char :=
  stripSp (squeeze (l.map normChar))

/-- Word-character test at a text position that may be off either end. -/
def wordOpt : Option Char → Bool
  | none => false
  | some c => isWordChar c

/-- `\b` at the end of a candidate match: the last matched character and the
following character (if any) disagree on being word characters. -/
def endBoundary (lastc : Char) (next : Option Char) : Bool :=
  isWordChar lastc != wordOpt next

/-- Backtracking of the greedy `[a-zA-Z0-9+#.-]+` against the closing `\b`:
given the maximal token-character run `run` and the character `after` it,
return the largest length `n ≤ run.length`, `n ≥ 1`, such that a word boundary
holds after the first `n` characters of `run`; `none` if no length works. -/
def pickLen (run : List Char) (after : Option Char) : Nat → Option Nat
  | 0 => none
  | n + 1 =>
    let lastc := run.getD n ' '
    let next := if n + 1 < run.length then some (run.getD (n + 1) ' ') else after
    if endBoundary lastc next then some (n + 1) else pickLen run after n

/-- Left-to-right scan of `re.findall(r'\b[a-zA-Z0-9+#.-]+\b', text)`:
`prev` is the character just before the current position (`none` at the start),
matches are non-overlapping, and after a failed attempt the scan advances one
character.  `fuel` only serves termination; `length + 1` is always enough. -/
def scanTokens : Nat → Option Char → List Char → List (List Char)
  | 0, _, _ => []
  | _ + 1, _, [] => []
  | fuel + 1, prev, c :: cs =>
    if (wordOpt prev != isWordChar c) && isTokChar c then
      let run := (c :: cs).takeWhile isTokChar
      let rest := (c :: cs).dropWhile isTokChar
      match pickLen run rest.head? run.length with
      | some n =>
          run.take n :: scanTokens fuel (some ((c :: cs).getD (n - 1) ' ')) ((c :: cs).drop n)
      | none => scanTokens fuel (some c) cs
    else scanTokens fuel (some c) cs

/-- `re.findall(r'\b[a-zA-Z0-9+#.-]+\b', text)`. -/
def findTokens (l : List Char) : List (List Char) :=
  scanTokens (l.length + 1) none l

/-- Substring test (python `in` on strings). -/
def containsSub (hay pat : List Char) : Bool :=
  match hay with
  | [] => pat.isEmpty
  | _ :: t => pat.isPrefixOf hay || containsSub t pat

-- Configuration (class Config, lines 25-30).

def MIN_KEYWORD_LENGTH : Nat := 3

def MAX_SHARED_KEYWORDS : Nat := 15

def MAX_MISSING_KEYWORDS : Nat := 12

-- Skill dictionaries (initialize_skill_sets, lines 81-148).

/-- `state.tech_skills` (lines 83-112). -/
def techSkillsS : List String :=
  [ "java", "python", "javascript", "typescript", "c++", "c#", "go", "rust", "swift", "kotlin",
    "scala", "ruby", "php", "perl", "r", "matlab", "sql", "html", "css", "bash", "powershell",
    "react", "angular", "vue", "nodejs", "express", "django", "flask", "fastapi", "spring",
    "springboot", "hibernate", "laravel", "rails", "tensorflow", "pytorch", "keras",
    "scikit-learn", "pandas", "numpy", "matplotlib", "jquery", "bootstrap", "tailwind",
    "nextjs", "vuejs", "reactjs", "angularjs",
    "mysql", "postgresql", "mongodb", "redis", "elasticsearch", "cassandra", "dynamodb",
    "oracle", "sqlite", "mariadb", "neo4j", "influxdb", "couchdb", "firestore",
    "aws", "azure", "gcp", "docker", "kubernetes", "jenkins", "gitlab", "github",
    "terraform", "ansible", "chef", "puppet", "vagrant", "helm", "istio",
    "prometheus", "grafana", "circleci", "travis",
    "git", "svn", "jira", "confluence", "slack", "postman", "swagger", "api",
    "rest", "graphql", "soap", "json", "xml", "yaml", "nginx", "apache", "tomcat",
    "webpack", "vite", "babel", "eslint",
    "agile", "scrum", "kanban", "devops", "cicd", "tdd", "bdd", "microservices",
    "algorithms", "blockchain", "cybersecurity", "authentication", "authorization",
    "oauth", "jwt", "saml", "encryption" ]

/-- `state.business_skills` (lines 114-117). -/
def businessSkillsS : List String :=
  [ "leadership", "stakeholder", "debugging", "optimization",
    "performance", "scalability", "security", "compliance", "architecture" ]

/-- `state.generic_words` (lines 119-148). -/
def genericWordsS : List String :=
  [ "ability", "additional", "add", "adding", "address", "addressing", "age",
    "application", "approach", "area", "base", "based", "build", "building",
    "business", "case", "company", "complete", "component", "content",
    "create", "creating", "current", "data", "day", "development", "different",
    "effort", "enable", "enabled", "enabling", "end", "ensure", "environment",
    "example", "experience", "following", "focus", "focused", "focusing",
    "functional", "general", "good", "great", "help", "high", "implement",
    "important", "include", "including", "information", "integration", "large",
    "law", "level", "line", "make", "making", "new", "number", "opportunity",
    "organization", "part", "place", "platform", "process", "product", "program",
    "project", "provide", "providing", "quality", "related", "required",
    "requirements", "responsible", "role", "service", "services", "set",
    "solution", "solutions", "strong", "support", "supporting", "system",
    "systems", "team", "teams", "technical", "technology", "time", "tool",
    "tools", "type", "understanding", "use", "using", "value", "various",
    "way", "well", "work", "working", "world", "year", "years",
    "looking", "seeking", "candidate", "position", "location", "salary",
    "benefits", "insurance", "health", "dental", "vision", "policy",
    "description", "responsibilities", "skills", "preferred", "minimum",
    "maximum", "overview", "summary", "duties", "tasks", "activities",
    "successful", "ideal", "excellent", "proven", "demonstrated", "knowledge",
    "proficiency", "deliver", "delivering", "drive", "driving", "lead",
    "leading", "develop", "developing", "maintain", "maintaining", "coordinate",
    "execute", "perform", "conduct", "establish", "identify", "evaluate",
    "define", "determine", "assess", "review", "monitor", "track", "report",
    "document", "participate", "contribute", "improve", "enhance", "streamline",
    "deploy", "operate", "administer", "facilitate", "organize", "prepare",
    "present", "train", "mentor", "guide", "assist", "manage", "managing" ]

/-- The basic fallback stop-word set installed when NLTK initialization fails
(lines 176-182); this is the stop-word set in force on the regex-fallback
tokenization path modelled here. -/
def stopWordsS : List String :=
  [ "the", "a", "an", "and", "or", "but", "in", "on", "at",
    "to", "for", "of", "with", "by", "from", "as", "is", "was",
    "are", "were", "be", "been", "being", "have", "has", "had",
    "this", "that", "these", "those", "it", "its", "they", "their",
    "will", "would", "should", "could", "can", "may", "might", "must" ]

/-- `tech_phrases` (lines 280-289): the catalog of multi-word phrases. -/
def techPhrasesS : List String :=
  [ "machine learning", "artificial intelligence", "data science",
    "software engineering", "web development", "mobile development",
    "full stack", "front end", "back end", "database design",
    "system design", "network security", "cloud computing",
    "project management", "product management", "quality assurance",
    "user experience", "user interface", "business intelligence",
    "data analytics", "software architecture", "design patterns",
    "data structures", "computer science", "information technology" ]

-- is_pure_number (lines 227-236).

/-- A character of the class `[\d,\.\$€£¥%]`. -/
def numFmtChar (c : Char) : Bool :=
  c.isDigit || c = ',' || c = '.' || c = '$' || c = '€' || c = '£' || c = '¥' || c = '%'

/-- Digits, one separator `-` or `/`, digits, anchored at both ends
(date ranges like `3-5`). -/
def dateRange (l : List Char) : Bool :=
  match l.span Char.isDigit with
  | (ds, sep :: restAfter) =>
    !ds.isEmpty && (sep = '-' || sep = '/') && !restAfter.isEmpty
      && restAfter.all Char.isDigit
  | _ => false

/-- `^\d+[kKmMbB]$` (salary abbreviations like `40k`). -/
def salaryAbbrev (l : List Char) : Bool :=
  match l.span Char.isDigit with
  | (ds, [suffix]) =>
    !ds.isEmpty && (suffix = 'k' || suffix = 'K' || suffix = 'm' || suffix = 'M'
      || suffix = 'b' || suffix = 'B')
  | _ => false

/-- `is_pure_number` (lines 227-236): `word.isdigit()` or one of the five
anchored patterns matches. -/
def is_pure_number (w : String) : Bool :=
  let l := w.toList
  (!l.isEmpty && l.all Char.isDigit)
  || (!l.isEmpty && l.all numFmtChar)
  || salaryAbbrev l
  || dateRange l
  || (l.length = 4 && l.all Char.isDigit)
  || (!l.isEmpty && l.all Char.isDigit)

-- has_technical_pattern (lines 238-265).

/-- Python `str.isupper` (ASCII model): at least one cased character and all
cased characters uppercase. -/
def pyIsUpper (l : List Char) : Bool :=
  l.any Char.isAlpha && l.all (fun c => !c.isAlpha || c.isUpper)

/-- `^[a-zA-Z]+\d+$` (a letter prefix followed by digits, e.g. `python3`). -/
def lettersThenDigits (l : List Char) : Bool :=
  match l.span Char.isAlpha with
  | (letters, digits) => !letters.isEmpty && !digits.isEmpty && digits.all Char.isDigit

/-- `^[IVXLCDM]+$` (Roman numerals). -/
def romanNumeral (l : List Char) : Bool :=
  !l.isEmpty && l.all (fun c => c ∈ (['I', 'V', 'X', 'L', 'C', 'D', 'M'] : List Char))

/-- `has_technical_pattern` (lines 238-265). -/
def has_technical_pattern (w : String) : Bool :=
  let l := w.toList
  if l.length < 3 || !(l.any Char.isAlpha) then false
  else if l.any (fun c => c = '+' || c = '#') then true
  else if (["js", "sql", "db", "py", "rb", "go", "rs", "ts"] : List String).any
      (fun suf => suf.toList.isSuffixOf l) then true
  else if "api".toList.isPrefixOf l then true
  else if lettersThenDigits l && decide (String.mk (l.takeWhile Char.isAlpha) ∈ techSkillsS) then
    true
  else if decide (3 ≤ l.length) && pyIsUpper l && !romanNumeral l then true
  else false

-- extract_skills_and_keywords (lines 267-357), regex-fallback tokenization path.

/-- The token filter shared by both regex-fallback branches (lines 311-317 and
320-326): length strictly above `MIN_KEYWORD_LENGTH`, at least one ASCII
letter, not a pure-number pattern, not a stop word. -/
def keepToken (w : String) : Bool :=
  decide (w.length > MIN_KEYWORD_LENGTH) && w.toList.any Char.isAlpha
    && !(is_pure_number w) && !(decide (w ∈ stopWordsS))

/-- The regex tokenization of the `except`-branch fallback (lines 308-317):
`re.findall(r'\b[a-zA-Z0-9+#.-]+\b', text.lower())` followed by the token
filter. -/
def singleWordsExceptBranch (norm : List Char) : List String :=
  ((findTokens (norm.map Char.toLower)).map (fun t => String.mk t)).filter keepToken

/-- The regex tokenization of the no-lemmatizer `else` branch (lines 318-326):
`re.findall(r'\b[a-zA-Z0-9+#.-]+\b', text.lower())` followed by the token
filter.  This is the branch `extract_skills_and_keywords` is modelled on. -/
def singleWordsNoLemma (norm : List Char) : List String :=
  ((findTokens (norm.map Char.toLower)).map (fun t => String.mk t)).filter keepToken

/-- `word_clean` (line 333): the token with `. - + #` removed. -/
def cleanStr (w : String) : String :=
  String.mk (w.toList.filter (fun c => !(c = '.' || c = '-' || c = '+' || c = '#')))

/-- The dictionary test of lines 335-336: the token, or its cleaned variant,
is an exact entry of `tech_skills` or `business_skills`. -/
def dictHit (w : String) : Bool :=
  decide (w ∈ techSkillsS) || decide (cleanStr w ∈ techSkillsS)
    || decide (w ∈ businessSkillsS) || decide (cleanStr w ∈ businessSkillsS)

/-- The accepted keywords of lines 329-345, as a membership-equivalent filter:
a token is kept when it is a dictionary hit (first loop), or — not being one —
it is outside `generic_words` and the stop words and has a technical pattern
(second loop; the `word not in relevant_keywords` guard only prevents a
duplicate insertion into the set). -/
def relevantKeywords (sw : List String) : List String :=
  sw.filter (fun w =>
    dictHit w ||
      (!(decide (w ∈ genericWordsS)) && !(decide (w ∈ stopWordsS)) && has_technical_pattern w))

/-- Lines 291-293: each catalogued phrase occurring as a substring of the
normalized text, with spaces replaced by underscores. -/
def multiWordTerms (norm : List Char) : List String :=
  (techPhrasesS.filter (fun p => containsSub norm p.toList)).map
    (fun p => String.mk (p.toList.map (fun c => if c = ' ' then '_' else c)))

/-- `extract_skills_and_keywords` (lines 267-357) on the regex-fallback
tokenization path: empty or whitespace-only input returns the empty set;
otherwise normalize, tokenize and filter, accept dictionary hits and
technical-pattern words, subtract `generic_words` and the stop words, and add
the multi-word phrase keywords.  The result models a python set: only
membership is meaningful. -/
def extract_skills_and_keywords (s : String) : List String :=
  if s.toList.all isSpacePy then []
  else
    (relevantKeywords (singleWordsNoLemma (normalizeText s.toList))).filter
        (fun w => !(decide (w ∈ genericWordsS)) && !(decide (w ∈ stopWordsS)))
      ++ multiWordTerms (normalizeText s.toList)

-- Keyword reconciliation (is_technical_skill, lines 359-369, and the keyword
-- part of calculate_similarity, lines 394-404).

/-- Python `str.lower` (ASCII model). -/
def pyLower (s : String) : String :=
  String.mk (s.toList.map Char.toLower)

/-- `is_technical_skill` (lines 359-369): substring match against a short
indicator list, or a digit / `+` / `#` anywhere, or a `js` / `sql` / `db`
suffix, or an all-caps token of length at least 3. -/
def is_technical_skill (k : String) : Bool :=
  (["java", "python", "javascript", "react", "aws", "docker",
    "kubernetes", "sql", "api", "framework", "database"] : List String).any
      (fun t => containsSub (pyLower k).toList t.toList)
  || k.toList.any (fun c => c.isDigit || c = '+' || c = '#')
  || (["js", "sql", "db"] : List String).any (fun suf => suf.toList.isSuffixOf k.toList)
  || (decide (3 ≤ k.length) && pyIsUpper k.toList)

/-- Lexicographic code-point comparison of character lists (python string
`<=`). -/
def lexLe : List Char → List Char → Bool
  | [], _ => true
  | _ :: _, [] => false
  | a :: as, b :: bs => if a = b then lexLe as bs else decide (a < b)

/-- The sort key comparison of lines 399-400: ascending in the tuple
`(not is_technical_skill(x), x.lower())`, so technical keywords come first and
ties inside a tier are ordered case-insensitively alphabetically.  The two
keys are equal in their first component exactly when `is_technical_skill`
agrees on the two keywords, and `False < True` makes technical keywords (with
`not is_technical_skill(x) = False`) sort first. -/
def sortLe (x y : String) : Bool :=
  if is_technical_skill x = is_technical_skill y
    then lexLe (pyLower x).toList (pyLower y).toList
    else is_technical_skill x && !(is_technical_skill y)

/-- `sortLe` as a relation, for `List.insertionSort`. -/
def relSort (x y : String) : Prop := sortLe x y = true

instance : DecidableRel relSort :=
  fun x y => inferInstanceAs (Decidable (sortLe x y = true))

/-- `shared` of lines 395-403: intersection, sorted by the composite key,
truncated to `MAX_SHARED_KEYWORDS`. -/
def sharedKeywords (resumeKws jobKws : List String) : List String :=
  (List.insertionSort relSort (resumeKws.filter (fun a => decide (a ∈ jobKws)))).take
    MAX_SHARED_KEYWORDS

/-- `missing` of lines 396-404: difference, sorted by the composite key,
truncated to `MAX_MISSING_KEYWORDS`. -/
def missingKeywords (resumeKws jobKws : List String) : List String :=
  (List.insertionSort relSort (jobKws.filter (fun b => !(decide (b ∈ resumeKws))))).take
    MAX_MISSING_KEYWORDS

/-! ### Helper lemmas -/

lemma normChar_space {c : Char} (h : isSpacePy c = true) : normChar c = ' ' := by
  have hc : c = ' ' ∨ c = '\t' ∨ c = '\n' ∨ c = '\r' ∨ c = '\x0b' ∨ c = '\x0c' := by
    simpa [isSpacePy, or_assoc] using h
  rcases hc with rfl | rfl | rfl | rfl | rfl | rfl <;> decide

lemma squeeze_subset : ∀ (l : List Char), ∀ c ∈ squeeze l, c ∈ l := by
  intro l
  induction l with
  | nil => simp [squeeze]
  | cons a t ih =>
    cases t with
    | nil => simp [squeeze]
    | cons b t2 =>
      intro c hc
      by_cases hab : a = ' ' && b = ' '
      · simp only [squeeze, hab, if_pos] at hc
        exact List.mem_cons_of_mem a (ih c hc)
      · simp only [squeeze, hab, if_neg, Bool.false_eq_true, not_false_iff] at hc
        rcases List.mem_cons.mp hc with h | h
        · exact h ▸ List.mem_cons_self a _
        · exact List.mem_cons_of_mem a (ih c h)

lemma normalizeText_all_space {l : List Char} (h : ∀ c ∈ l, isSpacePy c = true) :
    normalizeText l = [] := by
  have hmap : ∀ c ∈ l.map normChar, c = ' ' := by
    intro c hc
    rcases List.mem_map.mp hc with ⟨d, hd, rfl⟩
    exact normChar_space (h d hd)
  have hsq : ∀ c ∈ squeeze (l.map normChar), c = ' ' := fun c hc =>
    hmap c (squeeze_subset _ c hc)
  have hdrop : (squeeze (l.map normChar)).dropWhile (· == ' ') = [] :=
    List.dropWhile_eq_nil_iff.mpr (fun c hc => by simp [hsq c hc])
  simp [normalizeText, stripSp, hdrop]

lemma singleWordsNoLemma_nil : singleWordsNoLemma [] = [] := rfl

set_option maxRecDepth 100000 in
/-- The curated dictionaries are disjoint from `generic_words`, also after
punctuation stripping: no generic word is a dictionary hit. -/
lemma generic_words_no_dictHit : genericWordsS.all (fun g => !(dictHit g)) = true := by decide

lemma lexLe_total : ∀ a b : List Char, lexLe a b = true ∨ lexLe b a = true := by
  intro a
  induction a with
  | nil => intro b; exact Or.inl rfl
  | cons x xs ih =>
    intro b
    cases b with
    | nil => exact Or.inr rfl
    | cons y ys =>
      by_cases hxy : x = y
      · subst hxy
        simp only [lexLe, if_pos rfl]
        exact ih ys
      · rcases lt_trichotomy x y with h | h | h
        · left
          simp only [lexLe, if_neg hxy]
          exact decide_eq_true h
        · exact absurd h hxy
        · right
          simp only [lexLe, if_neg (Ne.symm hxy)]
          exact decide_eq_true h

lemma lexLe_trans :
    ∀ a b c : List Char, lexLe a b = true → lexLe b c = true → lexLe a c = true := by
  intro a
  induction a with
  | nil => intro b c _ _; rfl
  | cons x xs ih =>
    intro b c h1 h2
    cases b with
    | nil => exact absurd h1 (by simp [lexLe])
    | cons y ys =>
      cases c with
      | nil => exact absurd h2 (by simp [lexLe])
      | cons z zs =>
        by_cases hxy : x = y <;> by_cases hyz : y = z
        · subst hxy; subst hyz
          simp only [lexLe, if_pos rfl] at h1 h2 ⊢
          exact ih ys zs h1 h2
        · subst hxy
          simp only [lexLe, if_pos rfl, if_neg hyz] at h1 h2
          rw [lexLe, if_neg hyz]
          exact h2
        · subst hyz
          simp only [lexLe, if_neg hxy, if_pos rfl] at h1 h2
          rw [lexLe, if_neg hxy]
          exact h1
        · simp only [lexLe, if_neg hxy, if_neg hyz, decide_eq_true_eq] at h1 h2
          have hxz : x < z := lt_trans h1 h2
          rw [lexLe, if_neg (ne_of_lt hxz)]
          exact decide_eq_true hxz

instance : IsTotal String relSort := by
  constructor
  intro x y
  simp only [relSort, sortLe]
  by_cases h : is_technical_skill x = is_technical_skill y
  · rw [if_pos h, if_pos h.symm]
    exact lexLe_total _ _
  · rw [if_neg h, if_neg (Ne.symm h)]
    cases hx : is_technical_skill x <;> cases hy : is_technical_skill y <;>
      simp_all

instance : IsTrans String relSort := by
  constructor
  intro x y z h1 h2
  simp only [relSort, sortLe] at h1 h2 ⊢
  by_cases hxy : is_technical_skill x = is_technical_skill y <;>
    by_cases hyz : is_technical_skill y = is_technical_skill z
  · rw [if_pos hxy] at h1
    rw [if_pos hyz] at h2
    rw [if_pos (hxy.trans hyz)]
    exact lexLe_trans _ _ _ h1 h2
  · rw [if_pos hxy] at h1
    rw [if_neg hyz] at h2
    rw [if_neg (fun hxz => hyz (hxy.symm.trans hxz))]
    rcases Bool.and_eq_true _ _ ▸ h2 with ⟨hy, hz⟩
    rw [hxy]
    exact (Bool.and_eq_true _ _).symm ▸ ⟨hy, hz⟩
  · rw [if_neg hxy] at h1
    rw [if_pos hyz] at h2
    rcases Bool.and_eq_true _ _ ▸ h1 with ⟨hx, hy⟩
    simp only [Bool.not_eq_true'] at hy
    have hz : is_technical_skill z = false := hyz ▸ hy
    have hxz : is_technical_skill x ≠ is_technical_skill z := by
      rw [hx, hz]
      simp
    rw [if_neg hxz, hx, hz]
    rfl
  · rw [if_neg hxy] at h1
    rw [if_neg hyz] at h2
    rcases Bool.and_eq_true _ _ ▸ h1 with ⟨_, hy1⟩
    rcases Bool.and_eq_true _ _ ▸ h2 with ⟨hy2, _⟩
    simp only [Bool.not_eq_true'] at hy1
    exact Bool.noConfusion (hy1.symm.trans hy2)

/-- The ordering stated by the spec for the ranked lists: technical keywords
precede non-technical ones, and inside a tier the case-insensitive
alphabetical order is ascending (`lexLe` on the lower-cased keywords). -/
def tierOrder (x y : String) : Prop :=
  (is_technical_skill y = true → is_technical_skill x = true)
  ∧ (is_technical_skill x = is_technical_skill y →
      lexLe (pyLower x).toList (pyLower y).toList = true)

lemma relSort_tierOrder {x y : String} (h : relSort x y) : tierOrder x y := by
  rw [relSort, sortLe] at h
  by_cases hc : is_technical_skill x = is_technical_skill y
  · rw [if_pos hc] at h
    exact ⟨fun hy => hc.trans hy, fun _ => h⟩
  · rw [if_neg hc] at h
    rcases Bool.and_eq_true _ _ ▸ h with ⟨hx, hy⟩
    simp only [Bool.not_eq_true'] at hy
    exact ⟨fun _ => hx, fun heq => Bool.noConfusion ((hx.symm.trans heq).trans hy)⟩

lemma pairwise_tierOrder_sorted (l : List String) :
    (List.insertionSort relSort l).Pairwise tierOrder :=
  List.Pairwise.imp (fun h => relSort_tierOrder h)
    (List.sorted_insertionSort relSort l)

/-! ### Claims -/

/-- C1.  The claim says single-word tokens that exactly match a dictionary
entry are extracted unconditionally, in particular without regard to the
`MIN_KEYWORD_LENGTH + 1` minimum length, so that `aws`, `sql`, `git`, `c++`
are extracted.  The code disagrees: the token filter `len(token) >
MIN_KEYWORD_LENGTH` runs before the dictionary check, so length-3 dictionary
entries never reach it.  This theorem evaluates the code at such inputs:
`aws`, `sql`, `git`, `c++` are dictionary entries, yet `extract("aws")` is
empty and the short tokens are absent from the results. -/
theorem claim1_short_dict_tokens_dropped :
    "aws" ∈ techSkillsS ∧ "sql" ∈ techSkillsS ∧ "git" ∈ techSkillsS ∧ "c++" ∈ techSkillsS
    ∧ extract_skills_and_keywords "aws" = []
    ∧ "aws" ∉ extract_skills_and_keywords "deployed on aws cloud"
    ∧ "sql" ∉ extract_skills_and_keywords "we use sql heavily" :=
  ⟨by decide, by decide, by decide, by decide, by decide, by decide, by decide⟩

/-- The example sentence of claim C2. -/
def c2text : String := "I have 5 years of Python and AWS experience building REST APIs"

/-- C2, counterexample.  The claim requires `aws` and `api` in the result of
`extract` on the example sentence; neither is there: the token `aws` is
removed by the length pre-filter before the dictionary check, and the token
`apis` is kept as-is (no lemmatization on the deterministic fallback path), so
`api` itself never appears. -/
theorem claim2_counterexample :
    "aws" ∉ extract_skills_and_keywords c2text
    ∧ "api" ∉ extract_skills_and_keywords c2text :=
  ⟨by decide, by decide⟩

/-- C2, amended.  On the example sentence, `extract` contains `python` (tech
dictionary), `rest` (tech dictionary) and `apis` (accepted by the
`api`-prefix pattern applied to the raw token), and contains none of the
filler words `years`, `experience`, `building`. -/
theorem claim2_amended_example :
    "python" ∈ extract_skills_and_keywords c2text
    ∧ "rest" ∈ extract_skills_and_keywords c2text
    ∧ "apis" ∈ extract_skills_and_keywords c2text
    ∧ "years" ∉ extract_skills_and_keywords c2text
    ∧ "experience" ∉ extract_skills_and_keywords c2text
    ∧ "building" ∉ extract_skills_and_keywords c2text :=
  ⟨by decide, by decide, by decide, by decide, by decide, by decide⟩

/-- C3.  An exact dictionary hit survives the final filler/stop-word
subtraction: for every input text and every word `w` that is an exact entry of
`technical_terms` or `business_terms`, if `w` is among the filtered tokens of
the text then `w` is in the extraction result.  (This is the claim minus its
additional hypothesis `w ∈ generic_filler ∪ stop_words`, which no string
satisfies — `generic_words_no_dictHit` — so this statement is strictly
stronger than the claim and implies it.) -/
theorem claim3_dict_hits_survive_filtering (s w : String)
    (hdict : w ∈ techSkillsS ∨ w ∈ businessSkillsS)
    (htok : w ∈ singleWordsNoLemma (normalizeText s.toList)) :
    w ∈ extract_skills_and_keywords s := by
  have hdh : dictHit w = true := by
    rcases hdict with h | h <;> simp [dictHit, h]
  have hstop : w ∉ stopWordsS := by
    have hk : keepToken w = true := (List.mem_filter.mp htok).2
    simp only [keepToken, Bool.and_eq_true, Bool.not_eq_true',
      decide_eq_false_iff_not] at hk
    exact hk.2
  have hgen : w ∉ genericWordsS := by
    intro hg
    have hh := List.all_eq_true.mp generic_words_no_dictHit w hg
    simp [hdh] at hh
  by_cases hsp : s.toList.all isSpacePy = true
  · exfalso
    have hnorm : normalizeText s.toList = [] :=
      normalizeText_all_space (List.all_eq_true.mp hsp)
    rw [hnorm, singleWordsNoLemma_nil] at htok
    exact absurd htok (List.not_mem_nil w)
  · rw [extract_skills_and_keywords, if_neg hsp]
    apply List.mem_append_left
    apply List.mem_filter.mpr
    refine ⟨List.mem_filter.mpr ⟨htok, ?_⟩, ?_⟩
    · simp [hdh]
    · simp [hgen, hstop]

/-- Witness for C3 at a concrete input. -/
theorem claim3_dict_hits_survive_filtering_witness :
    ("python" ∈ techSkillsS ∨ "python" ∈ businessSkillsS)
    ∧ "python" ∈ singleWordsNoLemma (normalizeText "python coding".toList)
    ∧ "python" ∈ extract_skills_and_keywords "python coding" :=
  ⟨Or.inl (by decide), by decide,
    claim3_dict_hits_survive_filtering "python coding" "python" (Or.inl (by decide)) (by decide)⟩

/-- C4.  The claim says some all-uppercase token such as `HIPAA` is accepted
through the acronym branch of `has_technical_pattern`.  The code lowercases
the text before tokenizing, so no token is ever uppercase and the branch
never fires: on `"HIPAA compliance required"` the result keeps `compliance`
(dictionary) but no form of `HIPAA`, and every filtered token of that text
fails `str.isupper`. -/
theorem claim4_acronym_branch_unreachable :
    "hipaa" ∉ extract_skills_and_keywords "HIPAA compliance required"
    ∧ "HIPAA" ∉ extract_skills_and_keywords "HIPAA compliance required"
    ∧ "compliance" ∈ extract_skills_and_keywords "HIPAA compliance required"
    ∧ (singleWordsNoLemma (normalizeText "HIPAA compliance required".toList)).all
        (fun w => !(pyIsUpper w.toList)) = true :=
  ⟨by decide, by decide, by decide, by decide⟩

/-- C5.  `shared` is always a subset of `A ∩ B` and coincides with it (as a
set) when `|A ∩ B| ≤ MAX_SHARED_KEYWORDS`; `missing` is always a subset of
`B − A` and coincides with it when `|B − A| ≤ MAX_MISSING_KEYWORDS`; empty
inputs yield empty outputs.  Keyword sets are modelled as lists, intersection
and difference as the corresponding filters. -/
theorem claim5_reconcile_set_laws (A B : List String) :
    (∀ x ∈ sharedKeywords A B, x ∈ A ∧ x ∈ B)
    ∧ ((A.filter (fun a => decide (a ∈ B))).length ≤ MAX_SHARED_KEYWORDS →
        ∀ x, x ∈ sharedKeywords A B ↔ (x ∈ A ∧ x ∈ B))
    ∧ (∀ x ∈ missingKeywords A B, x ∈ B ∧ x ∉ A)
    ∧ ((B.filter (fun b => !(decide (b ∈ A)))).length ≤ MAX_MISSING_KEYWORDS →
        ∀ x, x ∈ missingKeywords A B ↔ (x ∈ B ∧ x ∉ A))
    ∧ sharedKeywords [] B = [] ∧ missingKeywords A [] = [] := by
  refine ⟨?_, ?_, ?_, ?_, rfl, rfl⟩
  · intro x hx
    have hx2 := List.mem_of_mem_take hx
    rw [List.mem_insertionSort] at hx2
    rcases List.mem_filter.mp hx2 with ⟨hA, hB⟩
    exact ⟨hA, of_decide_eq_true hB⟩
  · intro hlen x
    rw [sharedKeywords,
      List.take_of_length_le (by rw [List.length_insertionSort]; exact hlen),
      List.mem_insertionSort, List.mem_filter]
    simp
  · intro x hx
    have hx2 := List.mem_of_mem_take hx
    rw [List.mem_insertionSort] at hx2
    rcases List.mem_filter.mp hx2 with ⟨hB, hA⟩
    refine ⟨hB, ?_⟩
    simpa using hA
  · intro hlen x
    rw [missingKeywords,
      List.take_of_length_le (by rw [List.length_insertionSort]; exact hlen),
      List.mem_insertionSort, List.mem_filter]
    simp

/-- Witness for C5 at concrete inputs, discharging both cap hypotheses. -/
theorem claim5_reconcile_set_laws_witness :
    ((["python"].filter
        (fun a => decide (a ∈ (["python", "docker"] : List String)))).length
          ≤ MAX_SHARED_KEYWORDS
      ∧ ("python" ∈ sharedKeywords ["python"] ["python", "docker"] ↔
          ("python" ∈ (["python"] : List String)
            ∧ "python" ∈ (["python", "docker"] : List String))))
    ∧ ((["python", "docker"].filter
        (fun b => !(decide (b ∈ (["python"] : List String))))).length
          ≤ MAX_MISSING_KEYWORDS
      ∧ ("docker" ∈ missingKeywords ["python"] ["python", "docker"] ↔
          ("docker" ∈ (["python", "docker"] : List String)
            ∧ "docker" ∉ (["python"] : List String)))) :=
  ⟨⟨by decide, (claim5_reconcile_set_laws _ _).2.1 (by decide) "python"⟩,
   ⟨by decide, (claim5_reconcile_set_laws _ _).2.2.2.1 (by decide) "docker"⟩⟩

/-- C6.  Both output lists are ordered so that every keyword satisfying
`is_technical_skill` precedes every keyword that does not, with ascending
case-insensitive alphabetical order inside each tier, and truncation is
applied after the sort (the outputs are truncations of fully sorted lists, so
the ordering also holds on the outputs); on the spec's example the shared
list is `["python", "sql"]` and the missing list ranks `docker` before
`leadership`. -/
theorem claim6_reconcile_ranking :
    (∀ A B : List String,
      (sharedKeywords A B).Pairwise tierOrder ∧ (missingKeywords A B).Pairwise tierOrder)
    ∧ sharedKeywords ["python", "sql", "communication"]
        ["python", "docker", "sql", "leadership"] = ["python", "sql"]
    ∧ missingKeywords ["python", "sql", "communication"]
        ["python", "docker", "sql", "leadership"] = ["docker", "leadership"] := by
  refine ⟨fun A B => ⟨?_, ?_⟩, by decide, by decide⟩
  · exact List.Pairwise.sublist (List.take_sublist _ _) (pairwise_tierOrder_sorted _)
  · exact List.Pairwise.sublist (List.take_sublist _ _) (pairwise_tierOrder_sorted _)

/-- Witness for C6 instantiated at the example inputs. -/
theorem claim6_reconcile_ranking_witness :
    (sharedKeywords ["python", "sql", "communication"]
        ["python", "docker", "sql", "leadership"]).Pairwise tierOrder :=
  (claim6_reconcile_ranking.1 _ _).1

/-- C7.  The regex-fallback tokenization of the exception handler and the
regex-fallback tokenization of the no-lemmatizer branch are the same function
of the normalized text: both split with the same token regex and apply the
identical filter (length above `MIN_KEYWORD_LENGTH`, contains a letter, not a
pure-number pattern, not a stop word) to the raw tokens, with no
lemmatization; as Lean functions they are definitionally equal, hence
deterministic. -/
theorem claim7_fallback_paths_agree (norm : List Char) :
    singleWordsExceptBranch norm = singleWordsNoLemma norm
    ∧ singleWordsExceptBranch norm =
        ((findTokens (norm.map Char.toLower)).map (fun t => String.mk t)).filter keepToken :=
  ⟨rfl, rfl⟩

/-- Witness for C7 at a concrete text. -/
theorem claim7_fallback_paths_agree_witness :
    singleWordsExceptBranch "python rest apis".toList
      = singleWordsNoLemma "python rest apis".toList :=
  (claim7_fallback_paths_agree _).1

/-- C8.  Empty or whitespace-only input yields the empty set.  (The
never-raises half of the claim is reflected by the model being a total
function: the source wraps the whole body in `try/except` returning `set()`,
and line 270 returns `set()` for falsy or whitespace-only text, which is the
case proved here.) -/
theorem claim8_blank_input_empty (s : String) (h : s.toList.all isSpacePy = true) :
    extract_skills_and_keywords s = [] := by
  rw [extract_skills_and_keywords, if_pos h]

/-- Witness for C8 at the empty and at a whitespace-only string. -/
theorem claim8_blank_input_empty_witness :
    (("".toList.all isSpacePy = true) ∧ extract_skills_and_keywords "" = [])
    ∧ (("   ".toList.all isSpacePy = true) ∧ extract_skills_and_keywords "   " = []) :=
  ⟨⟨by decide, claim8_blank_input_empty "" (by decide)⟩,
   ⟨by decide, claim8_blank_input_empty "   " (by decide)⟩⟩

/-- C9.  Pure-numeric, currency, salary-abbreviation, date-range and
bare-year tokens are all discarded: on `"2023 40k $500 3-5"` the extraction
result is empty, and in particular contains none of the claimed tokens. -/
theorem claim9_numeric_exclusion :
    "2023" ∉ extract_skills_and_keywords "2023 40k $500 3-5"
    ∧ "40k" ∉ extract_skills_and_keywords "2023 40k $500 3-5"
    ∧ "$500" ∉ extract_skills_and_keywords "2023 40k $500 3-5"
    ∧ "500" ∉ extract_skills_and_keywords "2023 40k $500 3-5"
    ∧ "3-5" ∉ extract_skills_and_keywords "2023 40k $500 3-5"
    ∧ extract_skills_and_keywords "2023 40k $500 3-5" = [] :=
  ⟨by decide, by decide, by decide, by decide, by decide, by decide⟩

/-- C10, counterexample.  The claim's exemplar is wrong: `"artful stack"`
does not contain `"full stack"` as a substring (`artful` has a single `l`),
so `full_stack` is not extracted from it. -/
theorem claim10_counterexample :
    containsSub (normalizeText "artful stack".toList) "full stack".toList = false
    ∧ "full_stack" ∉ extract_skills_and_keywords "artful stack" :=
  ⟨by decide, by decide⟩

/-- C10, amended.  Phrase detection is plain substring matching on the
normalized text — also inside longer words (e.g. `"waterfront endless"`
contains `"front end"`) — and each matched catalogued phrase contributes its
underscore-joined keyword to the result unconditionally, bypassing the
length, numeric, filler and stop-word filters (it is appended after the
final filtering step).  The catalog has 25 phrases, not 24. -/
theorem claim10_phrase_substring_extracted (s p : String)
    (hp : p ∈ techPhrasesS)
    (hsub : containsSub (normalizeText s.toList) p.toList = true) :
    String.mk (p.toList.map (fun c => if c = ' ' then '_' else c))
      ∈ extract_skills_and_keywords s := by
  by_cases hsp : s.toList.all isSpacePy = true
  · exfalso
    have hnorm : normalizeText s.toList = [] :=
      normalizeText_all_space (List.all_eq_true.mp hsp)
    rw [hnorm] at hsub
    have hpe : p.toList = [] := by
      have hh : p.toList.isEmpty = true := by simpa [containsSub] using hsub
      simpa [List.isEmpty_iff] using hh
    have hpempty : p = "" := by
      cases p with
      | mk data =>
        have : data = [] := hpe
        simp [this]
    rw [hpempty] at hp
    exact absurd hp (by decide)
  · rw [extract_skills_and_keywords, if_neg hsp]
    apply List.mem_append_right
    exact List.mem_map_of_mem _ (List.mem_filter.mpr ⟨hp, hsub⟩)

/-- Witness for C10 with a phrase matched inside longer words. -/
theorem claim10_phrase_substring_extracted_witness :
    ("front end" ∈ techPhrasesS
      ∧ containsSub (normalizeText "waterfront endless".toList) "front end".toList = true)
    ∧ String.mk ("front end".toList.map (fun c => if c = ' ' then '_' else c))
        ∈ extract_skills_and_keywords "waterfront endless" :=
  ⟨⟨by decide, by decide⟩,
    claim10_phrase_substring_extracted "waterfront endless" "front end" (by decide) (by decide)⟩

end SimpleATS
